import Mathlib

/-!
Shallow embedding of `preprocess_audio.py` (HiFi-GAN audio preprocessing
pipeline): the `AudioPreprocessor` class (mel-spectrogram extraction and
directory-level batch orchestration) and the `main` entry point.

External library calls (`librosa.load`, `sf.write`, `np.save`) are modelled
by a per-file environment recording whether each call succeeds and, for the
decoder, which waveform it returns.  The orchestration logic — the discovery
cap, the per-file `try`/`except` boundary, index assignment, filename
construction, manifest accumulation, metadata/config persistence and the
summary statistics — is translated directly from the source.
-/

/-- The configuration dictionary handed to `AudioPreprocessor.__init__`
(fields read in `__init__`: sample_rate, n_fft, hop_length, win_length,
n_mels, fmin, fmax, segment_size). -/
structure SpectralConfig where
  sample_rate : Nat
  n_fft : Nat
  hop_length : Nat
  win_length : Nat
  n_mels : Nat
  fmin : ℚ
  fmax : ℚ
  segment_size : Nat
deriving DecidableEq, Repr

/-- The literal configuration built in `main` ("matching HiFi-GAN defaults"). -/
def defaultConfig : SpectralConfig :=
  { sample_rate := 22050
    n_fft := 1024
    hop_length := 256
    win_length := 1024
    n_mels := 80
    fmin := 0
    fmax := 8000
    segment_size := 8192 }

/-- Decimal digit characters of `n`, most significant first, computed with a
fuel argument (`fuel > n` suffices) so the definition is structural and
evaluates by `decide`/`rfl`. -/
def decimalDigitsAux : Nat → Nat → List Char
  | 0, _ => []
  | fuel + 1, n =>
    if n < 10 then [Nat.digitChar n]
    else decimalDigitsAux fuel (n / 10) ++ [Nat.digitChar (n % 10)]

/-- Decimal digit characters of `n`, most significant first. -/
def decimalDigits (n : Nat) : List Char := decimalDigitsAux (n + 1) n

/-- Python's `f"{n:04d}"`: the decimal digits of `n`, left-padded with `'0'`
to a minimum width of 4 characters. -/
def zeroPad4 (n : Nat) : String :=
  ⟨List.replicate (4 - (decimalDigits n).length) '0' ++ decimalDigits n⟩

/-- Numeric value of a decimal digit character. -/
def digitVal (c : Char) : Nat := c.toNat - 48

/-- Parse a non-empty all-digit character list as a decimal natural number. -/
def parseDigits (l : List Char) : Option Nat :=
  if l = [] then none
  else if l.all Char.isDigit then
    some (l.foldl (fun a c => 10 * a + digitVal c) 0)
  else none

/-- Recover the numeric index from an artifact filename: strip the 4-character
extension (".wav" / ".npy") and parse the remaining decimal digits. -/
def recoverId (s : String) : Option Nat :=
  parseDigits (s.data.take (s.data.length - 4))

/-- One entry of the `metadata` list built in `process_directory`. -/
structure ManifestRecord where
  id : Nat
  original_file : String
  audio_file : String
  mel_file : String
  audio_length : Nat
  duration : ℚ
  mel_shape : Nat × Nat
deriving DecidableEq, Repr

/-- Environment of one discovered input file: the outcome of each external
call made for it.  `loadResult` is what `librosa.load` does (decoded mono
waveform, or a raised decode error); `audioWriteErr` / `extractErr` /
`melSaveErr` are `none` when `sf.write` / the numeric spectrogram
computation / `np.save` succeed, and carry the raised message otherwise. -/
structure FileEnv where
  name : String
  loadResult : Except String (List ℚ)
  audioWriteErr : Option String
  extractErr : Option String
  melSaveErr : Option String

/-- Mutable state of the `process_directory` loop: which indices have an
`audio/<NNNN>.wav` file on disk, which have a `mels/<NNNN>.npy` file, the
accumulated `metadata` list, and the per-file error messages printed so far. -/
structure RunState where
  audioFiles : List Nat
  melFiles : List Nat
  metadata : List ManifestRecord
  errorLog : List String
deriving Repr

/-- Frame count of the mel spectrogram of a waveform of length `len`
(librosa stft with center padding of `n_fft/2` zeros on each side,
frame length `n_fft`, stride `hop_length`). -/
def nFramesOfLen (cfg : SpectralConfig) (len : Nat) : Nat :=
  1 + (len + 2 * (cfg.n_fft / 2) - cfg.n_fft) / cfg.hop_length

/-- The metadata entry appended for a successfully processed file:
literal translation of the `metadata.append({...})` call. -/
def mkRecord (cfg : SpectralConfig) (idx : Nat) (name : String)
    (samples : List ℚ) : ManifestRecord :=
  { id := idx
    original_file := name
    audio_file := zeroPad4 idx ++ ".wav"
    mel_file := zeroPad4 idx ++ ".npy"
    audio_length := samples.length
    duration := (samples.length : ℚ) / (cfg.sample_rate : ℚ)
    mel_shape := (cfg.n_mels, nFramesOfLen cfg samples.length) }

/-- The message printed by the `except` clause:
`print(f"\nError processing {audio_path.name}: {e}")`. -/
def logMsg (name msg : String) : String :=
  "Error processing " ++ name ++ ": " ++ msg

/-- One iteration of the `for idx, audio_path in enumerate(audio_files)`
loop: load, write the waveform, extract the mel spectrogram, save it, append
the metadata record; any raised error is caught, printed and the loop
continues (`except Exception as e: print(...); continue`), with no cleanup
of already-written artifacts. -/
def procStep (cfg : SpectralConfig) (st : RunState) (idx : Nat)
    (env : FileEnv) : RunState :=
  match env.loadResult with
  | .error e => { st with errorLog := st.errorLog ++ [logMsg env.name e] }
  | .ok samples =>
    match env.audioWriteErr with
    | some e => { st with errorLog := st.errorLog ++ [logMsg env.name e] }
    | none =>
      let st1 : RunState := { st with audioFiles := st.audioFiles ++ [idx] }
      match env.extractErr with
      | some e => { st1 with errorLog := st1.errorLog ++ [logMsg env.name e] }
      | none =>
        match env.melSaveErr with
        | some e => { st1 with errorLog := st1.errorLog ++ [logMsg env.name e] }
        | none =>
          { st1 with
            melFiles := st1.melFiles ++ [idx]
            metadata := st1.metadata ++ [mkRecord cfg idx env.name samples] }

/-- The discovery loop itself, carrying the `enumerate` counter. -/
def runLoop (cfg : SpectralConfig) : Nat → List FileEnv → RunState → RunState
  | _, [], st => st
  | idx, env :: rest, st => runLoop cfg (idx + 1) rest (procStep cfg st idx env)

/-- `audio_files = audio_files[:max_files]` guarded by `if max_files:` —
Python truthiness, so a cap of `0` (like `None`) leaves the list untouched. -/
def truncateFiles (files : List FileEnv) (maxFiles : Option Nat) : List FileEnv :=
  match maxFiles with
  | none => files
  | some n => if n = 0 then files else files.take n

/-- Result of `process_directory`: the final loop state, the metadata list
written to `metadata.json` (dumped unconditionally after the loop), and the
count reported by `print(f"Processed {len(metadata)} files")`. -/
structure RunResult where
  state : RunState
  writtenManifest : List ManifestRecord
  reportedProcessed : Nat
deriving Repr

/-- `AudioPreprocessor.process_directory`: apply the optional cap to the
discovered files, run the per-file loop from an empty state, then write the
manifest and report the processed count. -/
def processDirectory (cfg : SpectralConfig) (files : List FileEnv)
    (maxFiles : Option Nat) : RunResult :=
  let discovered := truncateFiles files maxFiles
  let st := runLoop cfg 0 discovered ⟨[], [], [], []⟩
  { state := st
    writtenManifest := st.metadata
    reportedProcessed := st.metadata.length }

/-- Summary statistics of `main`: `if metadata:` guards the whole block, so
nothing (in particular no average) is computed for an empty manifest;
otherwise the total is `sum(m['duration'] for m in metadata)` and the
average is `total_duration / len(metadata)`. -/
def summaryOf (metadata : List ManifestRecord) : Option (ℚ × ℚ) :=
  if metadata = [] then none
  else
    let total := (metadata.map (fun r => r.duration)).sum
    some (total, total / (metadata.length : ℚ))

/-- Observable outcome of `main`: the process exit status, the error message
printed when the input directory is missing, the batch run (or `none` when
no file was processed), the summary statistics, and whether `config.json`
was written. -/
structure MainResult where
  exitCode : Nat
  errorMessage : Option String
  run : Option RunResult
  summary : Option (ℚ × ℚ)
  configWritten : Bool

/-- The `main` entry point: when the input directory does not exist it
prints `"Error: Input directory not found: …"` and `return`s — the process
still terminates with exit status 0.  Otherwise it runs `process_directory`
with no cap, prints the summary, and writes the config snapshot. -/
def mainRun (inputDirExists : Bool) (inputDir : String)
    (files : List FileEnv) : MainResult :=
  if !inputDirExists then
    { exitCode := 0
      errorMessage := some ("Error: Input directory not found: " ++ inputDir)
      run := none
      summary := none
      configWritten := false }
  else
    let r := processDirectory defaultConfig files none
    { exitCode := 0
      errorMessage := none
      run := some r
      summary := summaryOf r.writtenManifest
      configWritten := true }

/-- Whether `librosa.load` succeeds for this file. -/
def loadOk (env : FileEnv) : Bool :=
  match env.loadResult with
  | .ok _ => true
  | .error _ => false

/-- The decoded waveform (empty when the decoder raised; only consulted for
files whose decode succeeded). -/
def loadedSamples (env : FileEnv) : List ℚ :=
  match env.loadResult with
  | .ok samples => samples
  | .error _ => []

/-- Whether the waveform artifact gets written for this file: decode and
`sf.write` both succeed. -/
def audioWritten (env : FileEnv) : Bool :=
  loadOk env && env.audioWriteErr.isNone

/-- Whether all five per-file steps succeed, i.e. the file contributes a
manifest record (and its mel artifact). -/
def isSuccess (env : FileEnv) : Bool :=
  loadOk env && env.audioWriteErr.isNone && env.extractErr.isNone
    && env.melSaveErr.isNone

/-- Indices (discovery positions) of the files whose waveform artifact ends
up on disk, starting the counter at `idx`. -/
def audioIdxs : Nat → List FileEnv → List Nat
  | _, [] => []
  | idx, env :: rest =>
    (if audioWritten env then [idx] else []) ++ audioIdxs (idx + 1) rest

/-- Indices (discovery positions) of the fully successful files. -/
def successIdxs : Nat → List FileEnv → List Nat
  | _, [] => []
  | idx, env :: rest =>
    (if isSuccess env then [idx] else []) ++ successIdxs (idx + 1) rest

/-- Manifest records of the fully successful files, ids taken from the
discovery counter starting at `idx`. -/
def successRecords (cfg : SpectralConfig) : Nat → List FileEnv → List ManifestRecord
  | _, [] => []
  | idx, env :: rest =>
    (if isSuccess env then [mkRecord cfg idx env.name (loadedSamples env)] else [])
      ++ successRecords cfg (idx + 1) rest

/-- The error message a failing file contributes (the first failing step's
message), `none` for a fully successful file. -/
def failMsg (env : FileEnv) : Option String :=
  match env.loadResult with
  | .error e => some (logMsg env.name e)
  | .ok _ =>
    match env.audioWriteErr with
    | some e => some (logMsg env.name e)
    | none =>
      match env.extractErr with
      | some e => some (logMsg env.name e)
      | none =>
        match env.melSaveErr with
        | some e => some (logMsg env.name e)
        | none => none

/-- All per-file error messages of a run, in discovery order. -/
def failureLogs (files : List FileEnv) : List String :=
  files.filterMap failMsg

/-- Closed form of the discovery loop: starting from state `st` with counter
`idx`, the loop appends exactly the audio indices, mel indices, records and
error messages determined file-by-file. -/
theorem runLoop_spec (cfg : SpectralConfig) (files : List FileEnv) :
    ∀ (idx : Nat) (st : RunState),
      runLoop cfg idx files st =
        { audioFiles := st.audioFiles ++ audioIdxs idx files
          melFiles := st.melFiles ++ successIdxs idx files
          metadata := st.metadata ++ successRecords cfg idx files
          errorLog := st.errorLog ++ failureLogs files } := by
  induction files with
  | nil => intro idx st; simp [runLoop, audioIdxs, successIdxs, successRecords, failureLogs]
  | cons env rest ih =>
    intro idx st
    rw [runLoop, ih]
    rcases h1 : env.loadResult with e | samples
    · simp [procStep, h1, audioIdxs, successIdxs, successRecords, failureLogs,
        failMsg, audioWritten, isSuccess, loadOk, loadedSamples]
    · rcases h2 : env.audioWriteErr with _ | e2
      · rcases h3 : env.extractErr with _ | e3
        · rcases h4 : env.melSaveErr with _ | e4
          · simp [procStep, h1, h2, h3, h4, audioIdxs, successIdxs,
              successRecords, failureLogs, failMsg, audioWritten, isSuccess,
              loadOk, loadedSamples]
          · simp [procStep, h1, h2, h3, h4, audioIdxs, successIdxs,
              successRecords, failureLogs, failMsg, audioWritten, isSuccess,
              loadOk, loadedSamples]
        · simp [procStep, h1, h2, h3, audioIdxs, successIdxs,
            successRecords, failureLogs, failMsg, audioWritten, isSuccess,
            loadOk, loadedSamples]
      · simp [procStep, h1, h2, audioIdxs, successIdxs, successRecords,
          failureLogs, failMsg, audioWritten, isSuccess, loadOk, loadedSamples]

/-- A digit character built from `d < 10` is a digit. -/
theorem digitChar_isDigit {d : Nat} (h : d < 10) :
    (Nat.digitChar d).isDigit = true := by
  interval_cases d <;> decide

/-- `digitVal` inverts `Nat.digitChar` on single digits. -/
theorem digitVal_digitChar {d : Nat} (h : d < 10) :
    digitVal (Nat.digitChar d) = d := by
  interval_cases d <;> decide

/-- With enough fuel the digit list is never empty. -/
theorem decimalDigitsAux_ne_nil :
    ∀ (fuel n : Nat), n < fuel → decimalDigitsAux fuel n ≠ [] := by
  intro fuel
  induction fuel with
  | zero => intro n h; omega
  | succ fuel ih =>
    intro n _
    by_cases h10 : n < 10
    · simp [decimalDigitsAux, h10]
    · simp [decimalDigitsAux, h10]

/-- With enough fuel every character of the digit list is a digit. -/
theorem decimalDigitsAux_all :
    ∀ (fuel n : Nat), n < fuel →
      (decimalDigitsAux fuel n).all Char.isDigit = true := by
  intro fuel
  induction fuel with
  | zero => intro n h; omega
  | succ fuel ih =>
    intro n hn
    by_cases h10 : n < 10
    · simp [decimalDigitsAux, h10, digitChar_isDigit h10]
    · have hdiv : n / 10 < n := Nat.div_lt_self (by omega) (by omega)
      have hfuel : n / 10 < fuel := by omega
      simp [decimalDigitsAux, h10, List.all_append, ih (n / 10) hfuel,
        digitChar_isDigit (Nat.mod_lt n (by omega))]

/-- Folding the decimal accumulator over the digit list of `n` starting from
`acc` yields `acc * 10 ^ (number of digits) + n`. -/
theorem decimalDigitsAux_foldl :
    ∀ (fuel n : Nat), n < fuel → ∀ (acc : Nat),
      (decimalDigitsAux fuel n).foldl (fun a c => 10 * a + digitVal c) acc
        = acc * 10 ^ (decimalDigitsAux fuel n).length + n := by
  intro fuel
  induction fuel with
  | zero => intro n h; omega
  | succ fuel ih =>
    intro n hn acc
    by_cases h10 : n < 10
    · simp [decimalDigitsAux, h10, List.foldl, digitVal_digitChar h10]
      ring
    · have hdiv : n / 10 < n := Nat.div_lt_self (by omega) (by omega)
      have hfuel : n / 10 < fuel := by omega
      have hmod : n % 10 < 10 := Nat.mod_lt n (by omega)
      simp only [decimalDigitsAux, h10, if_false, List.foldl_append,
        List.foldl, List.length_append, List.length_singleton]
      rw [ih (n / 10) hfuel acc, digitVal_digitChar hmod]
      have : 10 * (acc * 10 ^ (decimalDigitsAux fuel (n / 10)).length + n / 10)
            + n % 10
          = acc * 10 ^ ((decimalDigitsAux fuel (n / 10)).length + 1)
            + (10 * (n / 10) + n % 10) := by ring
      rw [this, Nat.div_add_mod]

/-- The digit list of `n` is non-empty. -/
theorem decimalDigits_ne_nil (n : Nat) : decimalDigits n ≠ [] :=
  decimalDigitsAux_ne_nil (n + 1) n (Nat.lt_succ_self n)

/-- Every character of the digit list of `n` is a digit. -/
theorem decimalDigits_all (n : Nat) :
    (decimalDigits n).all Char.isDigit = true :=
  decimalDigitsAux_all (n + 1) n (Nat.lt_succ_self n)

/-- Folding the decimal accumulator over leading zero padding keeps the
accumulator at `0`. -/
theorem foldl_replicate_zero :
    ∀ (k : Nat), (List.replicate k '0').foldl (fun a c => 10 * a + digitVal c) 0 = 0 := by
  intro k
  induction k with
  | zero => rfl
  | succ k ih => simpa [List.replicate, List.foldl, digitVal] using ih

/-- Folding the decimal accumulator over the digit list of `n` starting from
`acc` yields `acc * 10 ^ (number of digits) + n`. -/
theorem decimalDigits_foldl (n acc : Nat) :
    (decimalDigits n).foldl (fun a c => 10 * a + digitVal c) acc
      = acc * 10 ^ (decimalDigits n).length + n :=
  decimalDigitsAux_foldl (n + 1) n (Nat.lt_succ_self n) acc

/-- Parsing a zero-padded decimal rendering of `n` returns `n`. -/
theorem parseDigits_pad (k n : Nat) :
    parseDigits (List.replicate k '0' ++ decimalDigits n) = some n := by
  have hne : List.replicate k '0' ++ decimalDigits n ≠ [] := by
    simp [decimalDigits_ne_nil n]
  have hall : (List.replicate k '0' ++ decimalDigits n).all Char.isDigit = true := by
    rw [List.all_append, decimalDigits_all n, Bool.and_true, List.all_eq_true]
    intro c hc
    rw [List.eq_of_mem_replicate hc]
    decide
  rw [parseDigits, if_neg hne, if_pos hall, List.foldl_append,
    foldl_replicate_zero, decimalDigits_foldl]
  simp

/-- The characters of `zeroPad4 n` are its padding plus the digits of `n`. -/
theorem zeroPad4_data (n : Nat) :
    (zeroPad4 n).data
      = List.replicate (4 - (decimalDigits n).length) '0' ++ decimalDigits n := rfl

/-- Stripping the ".wav" extension from a generated audio filename and
parsing the digits recovers the index. -/
theorem recoverId_wav (n : Nat) : recoverId (zeroPad4 n ++ ".wav") = some n := by
  have hdata : (zeroPad4 n ++ ".wav").data
      = (List.replicate (4 - (decimalDigits n).length) '0' ++ decimalDigits n)
        ++ ['.', 'w', 'a', 'v'] := by
    rw [String.data_append, zeroPad4_data]
  have h4 : (['.', 'w', 'a', 'v'] : List Char).length = 4 := rfl
  rw [recoverId, hdata, List.length_append, h4, Nat.add_sub_cancel,
    List.take_left' rfl, parseDigits_pad]

/-- Stripping the ".npy" extension from a generated mel filename and parsing
the digits recovers the index. -/
theorem recoverId_npy (n : Nat) : recoverId (zeroPad4 n ++ ".npy") = some n := by
  have hdata : (zeroPad4 n ++ ".npy").data
      = (List.replicate (4 - (decimalDigits n).length) '0' ++ decimalDigits n)
        ++ ['.', 'n', 'p', 'y'] := by
    rw [String.data_append, zeroPad4_data]
  have h4 : (['.', 'n', 'p', 'y'] : List Char).length = 4 := rfl
  rw [recoverId, hdata, List.length_append, h4, Nat.add_sub_cancel,
    List.take_left' rfl, parseDigits_pad]

/-- A full run is the closed-form state built file-by-file from the capped
discovery list. -/
theorem processDirectory_unfold (cfg : SpectralConfig) (files : List FileEnv)
    (maxFiles : Option Nat) :
    processDirectory cfg files maxFiles =
      { state :=
          { audioFiles := audioIdxs 0 (truncateFiles files maxFiles)
            melFiles := successIdxs 0 (truncateFiles files maxFiles)
            metadata := successRecords cfg 0 (truncateFiles files maxFiles)
            errorLog := failureLogs (truncateFiles files maxFiles) }
        writtenManifest := successRecords cfg 0 (truncateFiles files maxFiles)
        reportedProcessed := (successRecords cfg 0 (truncateFiles files maxFiles)).length } := by
  simp [processDirectory, runLoop_spec cfg (truncateFiles files maxFiles) 0 ⟨[], [], [], []⟩]

/-- One record per fully successful file, regardless of where the counter
starts. -/
theorem successRecords_length (cfg : SpectralConfig) :
    ∀ (l : List FileEnv) (idx : Nat),
      (successRecords cfg idx l).length = (l.filter isSuccess).length := by
  intro l
  induction l with
  | nil => intro idx; simp [successRecords]
  | cons env rest ih =>
    intro idx
    cases h : isSuccess env with
    | false => simp [successRecords, h, List.filter_cons, ih]
    | true => simp [successRecords, h, List.filter_cons, ih]

/-- The stored ids of the records are exactly the discovery positions of the
successful files. -/
theorem successRecords_map_id (cfg : SpectralConfig) :
    ∀ (l : List FileEnv) (idx : Nat),
      (successRecords cfg idx l).map (fun r => r.id) = successIdxs idx l := by
  intro l
  induction l with
  | nil => intro idx; simp [successRecords, successIdxs]
  | cons env rest ih =>
    intro idx
    cases h : isSuccess env with
    | false => simp [successRecords, successIdxs, h, ih]
    | true => simp [successRecords, successIdxs, h, ih, mkRecord]

/-- The stored audio filenames are the zero-padded discovery positions of
the successful files. -/
theorem successRecords_map_audio_file (cfg : SpectralConfig) :
    ∀ (l : List FileEnv) (idx : Nat),
      (successRecords cfg idx l).map (fun r => r.audio_file)
        = (successIdxs idx l).map (fun i => zeroPad4 i ++ ".wav") := by
  intro l
  induction l with
  | nil => intro idx; simp [successRecords, successIdxs]
  | cons env rest ih =>
    intro idx
    cases h : isSuccess env with
    | false => simp [successRecords, successIdxs, h, ih]
    | true => simp [successRecords, successIdxs, h, ih, mkRecord]

/-- The stored mel filenames are the zero-padded discovery positions of the
successful files. -/
theorem successRecords_map_mel_file (cfg : SpectralConfig) :
    ∀ (l : List FileEnv) (idx : Nat),
      (successRecords cfg idx l).map (fun r => r.mel_file)
        = (successIdxs idx l).map (fun i => zeroPad4 i ++ ".npy") := by
  intro l
  induction l with
  | nil => intro idx; simp [successRecords, successIdxs]
  | cons env rest ih =>
    intro idx
    cases h : isSuccess env with
    | false => simp [successRecords, successIdxs, h, ih]
    | true => simp [successRecords, successIdxs, h, ih, mkRecord]

/-- When every file fails, no record is accumulated. -/
theorem successRecords_eq_nil (cfg : SpectralConfig) :
    ∀ (l : List FileEnv) (idx : Nat), (∀ env ∈ l, isSuccess env = false) →
      successRecords cfg idx l = [] := by
  intro l
  induction l with
  | nil => intro idx _; simp [successRecords]
  | cons env rest ih =>
    intro idx hall
    have h := hall env (List.mem_cons_self env rest)
    simp [successRecords, h, ih (idx + 1) fun e he => hall e (List.mem_cons_of_mem env he)]

/-- Every accumulated record is a `mkRecord` for some index. -/
theorem mem_successRecords (cfg : SpectralConfig) :
    ∀ (l : List FileEnv) (idx : Nat) (r : ManifestRecord),
      r ∈ successRecords cfg idx l →
        ∃ i name samples, r = mkRecord cfg i name samples := by
  intro l
  induction l with
  | nil => intro idx r hr; simp [successRecords] at hr
  | cons env rest ih =>
    intro idx r hr
    cases h : isSuccess env with
    | false =>
      rw [successRecords] at hr
      simp [h] at hr
      exact ih (idx + 1) r hr
    | true =>
      rw [successRecords] at hr
      simp [h] at hr
      rcases hr with hr | hr
      · exact ⟨idx, env.name, loadedSamples env, hr⟩
      · exact ih (idx + 1) r hr

/-- A small concrete configuration for witnesses. -/
def cfg0 : SpectralConfig :=
  { sample_rate := 10, n_fft := 4, hop_length := 2, win_length := 4
    n_mels := 3, fmin := 0, fmax := 5, segment_size := 8 }

/-- A file whose five steps all succeed. -/
def okEnv : FileEnv :=
  { name := "track_a.mp3", loadResult := .ok [1, 2]
    audioWriteErr := none, extractErr := none, melSaveErr := none }

/-- A second fully successful file. -/
def okEnv2 : FileEnv :=
  { name := "track_b.mp3", loadResult := .ok [3]
    audioWriteErr := none, extractErr := none, melSaveErr := none }

/-- A file whose decode (`librosa.load`) raises. -/
def decodeFailEnv : FileEnv :=
  { name := "broken.mp3", loadResult := .error "NoBackendError"
    audioWriteErr := none, extractErr := none, melSaveErr := none }

/-- A file that decodes and has its waveform written, but whose mel
extraction then raises. -/
def orphanEnv : FileEnv :=
  { name := "late_fail.mp3", loadResult := .ok [1]
    audioWriteErr := none, extractErr := some "mel extraction failed"
    melSaveErr := none }

/-- The record produced for `okEnv` at discovery index 0. -/
def record0 : ManifestRecord := mkRecord cfg0 0 "track_a.mp3" [1, 2]

/-- C1: the claim states that when per-file processing fails after the
waveform artifact was written, the orchestrator removes the orphaned audio
file before continuing, so audio and mel artifacts always exist in pairs.
The code's `except` clause only prints and continues: after a run on a file
whose mel extraction raises (after a successful waveform write) followed by
a successful file, `audio/0000.wav` is still on disk with no `mels/0000.npy`
counterpart — the claimed cleanup does not happen. -/
theorem claim_C1_orphaned_audio_not_removed :
    (processDirectory cfg0 [orphanEnv, okEnv] none).state.audioFiles = [0, 1] ∧
    (processDirectory cfg0 [orphanEnv, okEnv] none).state.melFiles = [1] ∧
    (processDirectory cfg0 [orphanEnv, okEnv] none).writtenManifest.length = 1 ∧
    (processDirectory cfg0 [orphanEnv, okEnv] none).state.errorLog
        = [logMsg "late_fail.mp3" "mel extraction failed"] :=
  ⟨rfl, rfl, rfl, rfl⟩

/-- C2 counterexample: the claim quantifies over every requested cap `N`
with `M > N`; at `N = 0` (directory with one successful file) the truthiness
test `if max_files:` disables the cap, so one record is produced although
the claim demands at most `N = 0`. -/
theorem claim_C2_cap_zero_counterexample :
    ¬ ((processDirectory cfg0 [okEnv] (some 0)).writtenManifest.length ≤ 0) := by
  decide

/-- C2 (amended to caps `N ≥ 1`): with `M > N ≥ 1`, a capped run produces
exactly `min N (successes among the first N discovered files)` manifest
records, and never more than `N`. -/
theorem claim_C2_cap_respected (cfg : SpectralConfig) (files : List FileEnv)
    (N : Nat) (hM : N < files.length) (hN : 1 ≤ N) :
    (processDirectory cfg files (some N)).writtenManifest.length
        = min N ((files.take N).filter isSuccess).length ∧
    (processDirectory cfg files (some N)).writtenManifest.length ≤ N := by
  have hN0 : N ≠ 0 := by omega
  have htr : truncateFiles files (some N) = files.take N := by
    simp [truncateFiles, hN0]
  have hlen : (processDirectory cfg files (some N)).writtenManifest.length
      = ((files.take N).filter isSuccess).length := by
    rw [processDirectory_unfold, htr]
    exact successRecords_length cfg (files.take N) 0
  have hle : ((files.take N).filter isSuccess).length ≤ N :=
    le_trans (List.length_filter_le _ _)
      (by rw [List.length_take]; exact min_le_left _ _)
  exact ⟨by rw [hlen, Nat.min_eq_right hle], by rw [hlen]; exact hle⟩

/-- Witness for the amended C2 at a concrete input: two discovered files,
cap 1. -/
theorem claim_C2_cap_respected_witness :
    (1 < ([okEnv, okEnv2] : List FileEnv).length ∧ 1 ≤ 1) ∧
    ((processDirectory cfg0 [okEnv, okEnv2] (some 1)).writtenManifest.length
        = min 1 ((([okEnv, okEnv2] : List FileEnv).take 1).filter isSuccess).length ∧
     (processDirectory cfg0 [okEnv, okEnv2] (some 1)).writtenManifest.length ≤ 1) :=
  ⟨⟨by decide, by decide⟩,
    claim_C2_cap_respected cfg0 [okEnv, okEnv2] 1 (by decide) (by decide)⟩

/-- C3: with a missing input directory `main` does abort before processing
any file and does print a clear message, but it then `return`s normally, so
the process terminates with exit status 0 — not the non-zero status the
claim requires. -/
theorem claim_C3_missing_dir_exits_zero :
    (mainRun false "jamendo_tracks" []).run = none ∧
    (mainRun false "jamendo_tracks" []).errorMessage
        = some ("Error: Input directory not found: " ++ "jamendo_tracks") ∧
    (mainRun false "jamendo_tracks" []).exitCode = 0 :=
  ⟨rfl, rfl, rfl⟩

/-- C4: every per-file error is caught at the loop boundary and logged with
the file's name, the run always ends by writing exactly the accumulated
records as the manifest, the reported processed count is the manifest
length, and when every file fails the written manifest is empty. -/
theorem claim_C4_per_file_errors_contained (cfg : SpectralConfig)
    (files : List FileEnv) (maxFiles : Option Nat) :
    (processDirectory cfg files maxFiles).writtenManifest
        = successRecords cfg 0 (truncateFiles files maxFiles) ∧
    (processDirectory cfg files maxFiles).state.errorLog
        = failureLogs (truncateFiles files maxFiles) ∧
    (processDirectory cfg files maxFiles).reportedProcessed
        = (processDirectory cfg files maxFiles).writtenManifest.length ∧
    ((∀ env ∈ truncateFiles files maxFiles, isSuccess env = false) →
        (processDirectory cfg files maxFiles).writtenManifest = []) := by
  refine ⟨?_, ?_, ?_, ?_⟩
  · rw [processDirectory_unfold]
  · rw [processDirectory_unfold]
  · rw [processDirectory_unfold]
  · intro hall
    rw [processDirectory_unfold]
    exact successRecords_eq_nil cfg (truncateFiles files maxFiles) 0 hall

/-- Witness for C4 at a concrete input: a single file whose decode raises;
the run completes with an empty manifest and the failure logged. -/
theorem claim_C4_per_file_errors_contained_witness :
    (∀ env ∈ truncateFiles [decodeFailEnv] none, isSuccess env = false) ∧
    (processDirectory cfg0 [decodeFailEnv] none).writtenManifest = [] ∧
    (processDirectory cfg0 [decodeFailEnv] none).state.errorLog
        = failureLogs (truncateFiles [decodeFailEnv] none) :=
  ⟨by decide,
    (claim_C4_per_file_errors_contained cfg0 [decodeFailEnv] none).2.2.2 (by decide),
    (claim_C4_per_file_errors_contained cfg0 [decodeFailEnv] none).2.1⟩

/-- C5: every stored `id` (and the zero-padded stem of both output
filenames) is the file's position in the optionally truncated discovery
order, so a failed file leaves a gap in the ids and filenames instead of
shifting later records down. -/
theorem claim_C5_ids_are_discovery_positions (cfg : SpectralConfig)
    (files : List FileEnv) (maxFiles : Option Nat) :
    (processDirectory cfg files maxFiles).writtenManifest.map (fun r => r.id)
        = successIdxs 0 (truncateFiles files maxFiles) ∧
    (processDirectory cfg files maxFiles).writtenManifest.map (fun r => r.audio_file)
        = (successIdxs 0 (truncateFiles files maxFiles)).map
            (fun i => zeroPad4 i ++ ".wav") ∧
    (processDirectory cfg files maxFiles).writtenManifest.map (fun r => r.mel_file)
        = (successIdxs 0 (truncateFiles files maxFiles)).map
            (fun i => zeroPad4 i ++ ".npy") := by
  rw [processDirectory_unfold]
  exact ⟨successRecords_map_id cfg _ 0, successRecords_map_audio_file cfg _ 0,
    successRecords_map_mel_file cfg _ 0⟩

/-- C8: the summary `main` reports is computed from the written manifest;
for a non-empty manifest the reported total is the sum of the `duration`
fields and the reported average is total divided by count, and for an empty
manifest the guarded block computes nothing (no error, no average). -/
theorem claim_C8_summary_statistics (files : List FileEnv) :
    (mainRun true "jamendo_tracks" files).summary
        = summaryOf (processDirectory defaultConfig files none).writtenManifest ∧
    (∀ md : List ManifestRecord, md ≠ [] →
        summaryOf md = some ((md.map (fun r => r.duration)).sum,
          (md.map (fun r => r.duration)).sum / (md.length : ℚ))) ∧
    summaryOf ([] : List ManifestRecord) = none := by
  refine ⟨rfl, ?_, rfl⟩
  intro md hmd
  simp [summaryOf, hmd]

/-- Witness for C8 at a concrete non-empty manifest. -/
theorem claim_C8_summary_statistics_witness :
    ([record0] : List ManifestRecord) ≠ [] ∧
    summaryOf [record0]
        = some ((([record0] : List ManifestRecord).map (fun r => r.duration)).sum,
            (([record0] : List ManifestRecord).map (fun r => r.duration)).sum
              / (([record0] : List ManifestRecord).length : ℚ)) :=
  ⟨List.cons_ne_nil record0 [],
    (claim_C8_summary_statistics []).2.1 [record0] (List.cons_ne_nil record0 [])⟩

/-- C9: a cap of 0 is falsy in `if max_files:`, so `max_files=0` behaves
exactly like no cap at all — the whole run is identical. -/
theorem claim_C9_zero_cap_is_no_cap (cfg : SpectralConfig) (files : List FileEnv) :
    processDirectory cfg files (some 0) = processDirectory cfg files none := rfl

/-- C10: in every produced manifest, `audio_file` is the zero-padded id
followed by ".wav" and `mel_file` is the same stem followed by ".npy", and
parsing the digits of either filename recovers the record's id. -/
theorem claim_C10_filenames_encode_id (cfg : SpectralConfig)
    (files : List FileEnv) (maxFiles : Option Nat) :
    ∀ r ∈ (processDirectory cfg files maxFiles).writtenManifest,
      r.audio_file = zeroPad4 r.id ++ ".wav" ∧
      r.mel_file = zeroPad4 r.id ++ ".npy" ∧
      recoverId r.audio_file = some r.id ∧
      recoverId r.mel_file = some r.id := by
  intro r hr
  rw [processDirectory_unfold] at hr
  have hr' : r ∈ successRecords cfg 0 (truncateFiles files maxFiles) := hr
  obtain ⟨i, name, samples, rfl⟩ := mem_successRecords cfg _ 0 r hr'
  refine ⟨rfl, rfl, ?_, ?_⟩
  · exact recoverId_wav i
  · exact recoverId_npy i

/-- Witness for C10 at a concrete run and record. -/
theorem claim_C10_filenames_encode_id_witness :
    record0.audio_file = zeroPad4 record0.id ++ ".wav" ∧
    record0.mel_file = zeroPad4 record0.id ++ ".npy" ∧
    recoverId record0.audio_file = some record0.id ∧
    recoverId record0.mel_file = some record0.id :=
  claim_C10_filenames_encode_id cfg0 [okEnv] none record0 (by
    rw [processDirectory_unfold]
    show record0 ∈ successRecords cfg0 0 (truncateFiles [okEnv] none)
    simp [truncateFiles, successRecords, isSuccess, loadOk, okEnv,
      loadedSamples, record0])

noncomputable section

/-- librosa's `amin` default in `power_to_db`: `1e-10`, the floor applied to
both the magnitudes and the reference value before taking logarithms. -/
def dbAmin : ℝ := 1 / 10 ^ 10

/-- Maximum of a list of reals (`np.max` over a flattened array); junk value
0 for the empty list, on which `np.max` raises instead. -/
def listMax : List ℝ → ℝ
  | [] => 0
  | x :: xs => xs.foldl max x

/-- `np.max` of a 2-D matrix: maximum over all entries. -/
def matrixMax (S : List (List ℝ)) : ℝ := listMax S.flatten

/-- `S * c` for a scalar `c`: entrywise scaling of a matrix. -/
def scaleMatrix (c : ℝ) (S : List (List ℝ)) : List (List ℝ) :=
  S.map (fun row => row.map (fun x => c * x))

/-- One entry of librosa's `power_to_db` before the `top_db` clip:
`10*log10(maximum(amin, x)) - 10*log10(maximum(amin, ref_value))`. -/
def dbEntry (refValue x : ℝ) : ℝ :=
  10 * Real.logb 10 (max dbAmin x) - 10 * Real.logb 10 (max dbAmin refValue)

/-- `magnitude = np.abs(S)` in `power_to_db`. -/
def magnitudeOf (S : List (List ℝ)) : List (List ℝ) :=
  S.map (fun row => row.map (fun x => |x|))

/-- The decibel matrix of `power_to_db` before clipping, with
`ref=np.max`, i.e. `ref_value = np.max(magnitude)`. -/
def logSpecOf (S : List (List ℝ)) : List (List ℝ) :=
  (magnitudeOf S).map (fun row => row.map (dbEntry (matrixMax (magnitudeOf S))))

/-- `librosa.power_to_db(S, ref=np.max)` with the default `amin=1e-10` and
`top_db=80.0`: the decibel matrix clipped below at `log_spec.max() - 80`. -/
def powerToDb (S : List (List ℝ)) : List (List ℝ) :=
  (logSpecOf S).map (fun row => row.map (fun x => max x (matrixMax (logSpecOf S) - 80)))

/-- `scipy.signal.get_window('hann', N, fftbins=True)`: the periodic Hann
window `0.5 - 0.5*cos(2*pi*n/N)`. -/
def hannWindow (N : Nat) : List ℝ :=
  (List.range N).map (fun n : ℕ => 1 / 2 - 1 / 2 * Real.cos (2 * Real.pi * n / N))

/-- `librosa.util.pad_center`: center a window in `size` samples by zero
padding, raising when the window is longer than `size`. -/
def padCenter (w : List ℝ) (size : Nat) : Except String (List ℝ) :=
  if w.length ≤ size then
    .ok (List.replicate ((size - w.length) / 2) 0 ++ w
      ++ List.replicate (size - w.length - (size - w.length) / 2) 0)
  else .error "Target size must be at least input size"

/-- `np.abs(librosa.stft(y, ...))**2` with `center=True` (the
`melspectrogram` default): pad `y` with `n_fft/2` zeros on each side, frame
with stride `hop_length`, apply the centered Hann window, and take squared
magnitudes of the size-`n_fft` Fourier transform, keeping bins
`0..n_fft/2`.  The two error branches are librosa's: `hop_length` must be
positive, and the (padded) signal must cover one frame. -/
def stftPower (cfg : SpectralConfig) (y : List ℝ) : Except String (List (List ℝ)) :=
  if cfg.hop_length = 0 then .error "hop_length must be a positive integer"
  else
    match padCenter (hannWindow cfg.win_length) cfg.n_fft with
    | .error e => .error e
    | .ok window =>
      let ypad := List.replicate (cfg.n_fft / 2) 0 ++ y ++ List.replicate (cfg.n_fft / 2) 0
      if ypad.length < cfg.n_fft then .error "Input is too short for frame length"
      else
        let nFrames := 1 + (ypad.length - cfg.n_fft) / cfg.hop_length
        .ok ((List.range (1 + cfg.n_fft / 2)).map (fun k : ℕ =>
          (List.range nFrames).map (fun t : ℕ =>
            (∑ m ∈ Finset.range cfg.n_fft,
                ypad.getD (t * cfg.hop_length + m) 0 * window.getD m 0 *
                  Real.cos (2 * Real.pi * k * m / cfg.n_fft)) ^ 2
            + (∑ m ∈ Finset.range cfg.n_fft,
                ypad.getD (t * cfg.hop_length + m) 0 * window.getD m 0 *
                  Real.sin (2 * Real.pi * k * m / cfg.n_fft)) ^ 2)))

/-- librosa's Slaney mel scale `hz_to_mel`: linear below 1 kHz
(slope `3/200` mel per Hz), logarithmic above (`log(6.4)/27` per mel). -/
def hzToMel (f : ℝ) : ℝ :=
  if f ≥ 1000 then 15 + Real.log (f / 1000) / (Real.log (32 / 5) / 27)
  else f / (200 / 3)

/-- librosa's Slaney `mel_to_hz`, inverse of `hzToMel`. -/
def melToHz (m : ℝ) : ℝ :=
  if m ≥ 15 then 1000 * Real.exp (Real.log (32 / 5) / 27 * (m - 15))
  else 200 / 3 * m

/-- `librosa.mel_frequencies(n_mels+2, fmin, fmax)`: `n_mels + 2` points
equally spaced on the mel axis between `fmin` and `fmax`, mapped back to
Hz. -/
def melPoints (cfg : SpectralConfig) : List ℝ :=
  (List.range (cfg.n_mels + 2)).map (fun i : ℕ =>
    melToHz (hzToMel (cfg.fmin : ℝ)
      + i * (hzToMel (cfg.fmax : ℝ) - hzToMel (cfg.fmin : ℝ)) / (cfg.n_mels + 1)))

/-- `librosa.fft_frequencies`: center frequency of each of the
`1 + n_fft/2` retained FFT bins. -/
def fftFreqs (cfg : SpectralConfig) : List ℝ :=
  (List.range (1 + cfg.n_fft / 2)).map (fun k : ℕ => k * cfg.sample_rate / cfg.n_fft)

/-- `librosa.filters.mel(sr, n_fft, n_mels, fmin, fmax)` with the default
`htk=False, norm='slaney'`: one row per mel band of triangular weights over
the FFT bin frequencies, normalized by `2 / (mel_f[m+2] - mel_f[m])`. -/
def melFilters (cfg : SpectralConfig) : List (List ℝ) :=
  (List.range cfg.n_mels).map (fun m =>
    (fftFreqs cfg).map (fun f =>
      max 0 (min
          ((f - (melPoints cfg).getD m 0)
            / ((melPoints cfg).getD (m + 1) 0 - (melPoints cfg).getD m 0))
          (((melPoints cfg).getD (m + 2) 0 - f)
            / ((melPoints cfg).getD (m + 2) 0 - (melPoints cfg).getD (m + 1) 0)))
        * (2 / ((melPoints cfg).getD (m + 2) 0 - (melPoints cfg).getD m 0))))

/-- `np.einsum("...ft,mf->...mt", S, mel_basis)`: the matrix product
`mel_basis @ S`. -/
def matMul (A B : List (List ℝ)) : List (List ℝ) :=
  A.map (fun row =>
    (List.range (B.headD []).length).map (fun t =>
      ∑ j ∈ Finset.range B.length, row.getD j 0 * (B.getD j []).getD t 0))

/-- `librosa.feature.melspectrogram(y, sr, n_fft, hop_length, win_length,
n_mels, fmin, fmax)` with defaults `power=2.0, center=True`: the mel filter
bank applied to the power spectrogram. -/
def melspectrogram (cfg : SpectralConfig) (y : List ℝ) : Except String (List (List ℝ)) :=
  match stftPower cfg y with
  | .error e => .error e
  | .ok S => .ok (matMul (melFilters cfg) S)

/-- `AudioPreprocessor.extract_mel_spectrogram`: the mel spectrogram of the
waveform converted to decibels with `librosa.power_to_db(mel, ref=np.max)`. -/
def extract_mel_spectrogram (cfg : SpectralConfig) (y : List ℝ) :
    Except String (List (List ℝ)) :=
  match melspectrogram cfg y with
  | .error e => .error e
  | .ok mel => .ok (powerToDb mel)

end

/-- Everything at or below the accumulator stays below a max-fold. -/
theorem le_foldl_max : ∀ (l : List ℝ) (a x : ℝ), x = a ∨ x ∈ l → x ≤ l.foldl max a := by
  intro l
  induction l with
  | nil =>
    intro a x hx
    rcases hx with h | h
    · exact h.le
    · simp at h
  | cons b t ih =>
    intro a x hx
    rw [List.foldl_cons]
    rcases hx with h | h
    · exact le_trans (le_trans h.le (le_max_left a b)) (ih (max a b) (max a b) (Or.inl rfl))
    · rcases List.mem_cons.mp h with h1 | h1
      · exact le_trans (le_trans h1.le (le_max_right a b)) (ih (max a b) (max a b) (Or.inl rfl))
      · exact ih (max a b) x (Or.inr h1)

/-- A max-fold returns its accumulator or one of the list elements. -/
theorem foldl_max_mem : ∀ (l : List ℝ) (a : ℝ),
    l.foldl max a = a ∨ l.foldl max a ∈ l := by
  intro l
  induction l with
  | nil => intro a; exact Or.inl rfl
  | cons b t ih =>
    intro a
    rw [List.foldl_cons]
    rcases ih (max a b) with h | h
    · rcases max_choice a b with hab | hab
      · exact Or.inl (by rw [h, hab])
      · exact Or.inr (by rw [h, hab]; exact List.mem_cons_self b t)
    · exact Or.inr (List.mem_cons_of_mem b h)

/-- Every element of a list is at most its maximum. -/
theorem listMax_ge (l : List ℝ) (x : ℝ) (hx : x ∈ l) : x ≤ listMax l := by
  cases l with
  | nil => simp at hx
  | cons a t =>
    show x ≤ t.foldl max a
    rcases List.mem_cons.mp hx with h | h
    · exact le_foldl_max t a x (Or.inl h)
    · exact le_foldl_max t a x (Or.inr h)

/-- The maximum of a non-empty list is one of its elements. -/
theorem listMax_mem (l : List ℝ) (h : l ≠ []) : listMax l ∈ l := by
  cases l with
  | nil => exact absurd rfl h
  | cons a t =>
    show t.foldl max a ∈ a :: t
    rcases foldl_max_mem t a with h1 | h1
    · rw [h1]; exact List.mem_cons_self a t
    · exact List.mem_cons_of_mem a h1

/-- A member that dominates every element is the list maximum. -/
theorem listMax_eq_of (l : List ℝ) (a : ℝ) (ha : a ∈ l)
    (hall : ∀ x ∈ l, x ≤ a) : listMax l = a :=
  le_antisymm (hall _ (listMax_mem l (List.ne_nil_of_mem ha))) (listMax_ge l a ha)

/-- A nonnegative scalar distributes over a max-fold. -/
theorem foldl_max_map_mul (c : ℝ) (hc : 0 ≤ c) : ∀ (l : List ℝ) (a : ℝ),
    (l.map (fun x => c * x)).foldl max (c * a) = c * l.foldl max a := by
  intro l
  induction l with
  | nil => intro a; rfl
  | cons b t ih =>
    intro a
    simp only [List.map_cons, List.foldl_cons]
    rw [← mul_max_of_nonneg a b hc]
    exact ih (max a b)

/-- A nonnegative scalar distributes over a list maximum. -/
theorem listMax_map_mul (c : ℝ) (hc : 0 ≤ c) (l : List ℝ) :
    listMax (l.map (fun x => c * x)) = c * listMax l := by
  cases l with
  | nil => simp [listMax]
  | cons a t => exact foldl_max_map_mul c hc t a

/-- Flattening commutes with entrywise mapping. -/
theorem flatten_map_map (f : ℝ → ℝ) (S : List (List ℝ)) :
    (S.map (fun row => row.map f)).flatten = S.flatten.map f :=
  (List.map_flatten f S).symm

/-- Two entrywise maps that agree on all entries give the same matrix. -/
theorem matrix_map_congr (f g : ℝ → ℝ) :
    ∀ (S : List (List ℝ)), (∀ x ∈ S.flatten, f x = g x) →
      S.map (fun row => row.map f) = S.map (fun row => row.map g) := by
  intro S
  induction S with
  | nil => intro _; rfl
  | cons r rest ih =>
    intro h
    simp only [List.flatten_cons, List.mem_append] at h
    simp only [List.map_cons]
    rw [List.map_congr_left (fun x hx => h x (Or.inl hx)),
      ih (fun x hx => h x (Or.inr hx))]

/-- Composing two entrywise maps. -/
theorem matrix_map_map (f g : ℝ → ℝ) (S : List (List ℝ)) :
    (S.map (fun row => row.map f)).map (fun row => row.map g)
      = S.map (fun row => row.map (fun x => g (f x))) := by
  simp [List.map_map, Function.comp]

/-- The identity entrywise map. -/
theorem matrix_map_id (S : List (List ℝ)) :
    S.map (fun row => row.map (fun x => x)) = S := by
  simp

/-- librosa's floor `amin = 1e-10` is positive. -/
theorem dbAmin_pos : (0:ℝ) < dbAmin := by norm_num [dbAmin]

/-- The decibel value of the reference entry itself is 0 dB. -/
theorem dbEntry_self (r : ℝ) : dbEntry r r = 0 := sub_self _

/-- Entries at most the reference map to at most 0 dB. -/
theorem dbEntry_nonpos (r x : ℝ) (h : x ≤ r) : dbEntry r x ≤ 0 := by
  unfold dbEntry
  have h1 : (0:ℝ) < max dbAmin x := lt_of_lt_of_le dbAmin_pos (le_max_left _ _)
  have h2 : max dbAmin x ≤ max dbAmin r := max_le_max le_rfl h
  have h3 := Real.logb_le_logb_of_le (by norm_num : (1:ℝ) < 10) h1 h2
  linarith

/-- The maximum entry of `power_to_db(S, ref=np.max)` is 0 dB for every
matrix with at least one entry. -/
theorem powerToDb_matrixMax (S : List (List ℝ)) (hne : S.flatten ≠ []) :
    matrixMax (powerToDb S) = 0 := by
  have hmagflat : (magnitudeOf S).flatten = S.flatten.map (fun x => |x|) :=
    flatten_map_map _ S
  have hMne : S.flatten.map (fun x => |x|) ≠ [] := by
    intro h
    rw [List.map_eq_nil_iff] at h
    exact hne h
  have hRmem : listMax (S.flatten.map (fun x => |x|)) ∈ S.flatten.map (fun x => |x|) :=
    listMax_mem _ hMne
  have hRdef : matrixMax (magnitudeOf S) = listMax (S.flatten.map (fun x => |x|)) := by
    rw [matrixMax, hmagflat]
  have hlogflat : (logSpecOf S).flatten
      = (S.flatten.map (fun x => |x|)).map
          (dbEntry (listMax (S.flatten.map (fun x => |x|)))) := by
    rw [logSpecOf, flatten_map_map, hmagflat, hRdef]
  have hzero_mem : (0:ℝ) ∈ (logSpecOf S).flatten := by
    rw [hlogflat]
    have hmem := List.mem_map_of_mem
      (dbEntry (listMax (S.flatten.map (fun x => |x|)))) hRmem
    rw [dbEntry_self] at hmem
    exact hmem
  have hall : ∀ e ∈ (logSpecOf S).flatten, e ≤ 0 := by
    rw [hlogflat]
    intro e he
    rcases List.mem_map.mp he with ⟨x, hx, rfl⟩
    exact dbEntry_nonpos _ _ (listMax_ge _ x hx)
  have hlsmax : matrixMax (logSpecOf S) = 0 := listMax_eq_of _ _ hzero_mem hall
  have hpflat : (powerToDb S).flatten
      = (logSpecOf S).flatten.map
          (fun x => max x (matrixMax (logSpecOf S) - 80)) := by
    rw [powerToDb]
    exact flatten_map_map _ _
  rw [matrixMax, hpflat, hlsmax]
  apply listMax_eq_of
  · have hmem := List.mem_map_of_mem (fun x => max x ((0:ℝ) - 80)) hzero_mem
    have hmem' : max (0:ℝ) (0 - 80)
        ∈ List.map (fun x => max x ((0:ℝ) - 80)) (logSpecOf S).flatten := hmem
    have h0 : max (0:ℝ) (0 - 80) = 0 := by norm_num
    rw [h0] at hmem'
    exact hmem'
  · intro e he
    rcases List.mem_map.mp he with ⟨x, hx, rfl⟩
    exact max_le (hall x hx) (by norm_num)

/-- When every entry of `S` and of `c*S` is at least `amin`, the pre-clip
decibel matrix is invariant under scaling the power spectrogram by `c`. -/
theorem logSpecOf_scale (S : List (List ℝ)) (c : ℝ) (hne : S.flatten ≠ [])
    (hc : 0 < c) (hS : ∀ x ∈ S.flatten, dbAmin ≤ x)
    (hcS : ∀ x ∈ S.flatten, dbAmin ≤ c * x) :
    logSpecOf (scaleMatrix c S) = logSpecOf S := by
  have hpos : ∀ x ∈ S.flatten, (0:ℝ) < x := fun x hx =>
    lt_of_lt_of_le dbAmin_pos (hS x hx)
  have hmagS : magnitudeOf S = S := by
    rw [magnitudeOf, matrix_map_congr (fun x => |x|) (fun x => x) S
      (fun x hx => abs_of_pos (hpos x hx)), matrix_map_id]
  have hscaleflat : (scaleMatrix c S).flatten = S.flatten.map (fun x => c * x) :=
    flatten_map_map _ S
  have habs2 : ∀ x ∈ (scaleMatrix c S).flatten, |x| = x := by
    intro x hx
    rw [hscaleflat] at hx
    rcases List.mem_map.mp hx with ⟨x0, hx0, rfl⟩
    exact abs_of_pos (mul_pos hc (hpos x0 hx0))
  have hmagScale : magnitudeOf (scaleMatrix c S) = scaleMatrix c S := by
    rw [magnitudeOf,
      matrix_map_congr (fun x => |x|) (fun x => x) (scaleMatrix c S) habs2,
      matrix_map_id]
  have hmmScale : matrixMax (scaleMatrix c S) = c * listMax S.flatten := by
    rw [matrixMax, hscaleflat, listMax_map_mul c (le_of_lt hc)]
  have hRmem : listMax S.flatten ∈ S.flatten := listMax_mem _ hne
  have hR0 : (0:ℝ) < listMax S.flatten := hpos _ hRmem
  rw [logSpecOf, logSpecOf, hmagS, hmagScale, hmmScale, scaleMatrix,
    matrix_map_map]
  apply matrix_map_congr
  intro x hx
  have hx0 : (0:ℝ) < x := hpos x hx
  show dbEntry (c * listMax S.flatten) (c * x) = dbEntry (listMax S.flatten) x
  rw [dbEntry, dbEntry,
    max_eq_right (hcS x hx), max_eq_right (hS x hx),
    max_eq_right (hS _ hRmem), max_eq_right (hcS _ hRmem),
    Real.logb_mul (ne_of_gt hc) (ne_of_gt hx0),
    Real.logb_mul (ne_of_gt hc) (ne_of_gt hR0)]
  ring

/-- `power_to_db(S, ref=np.max)` is invariant under scaling when the `amin`
floor is never engaged. -/
theorem powerToDb_scale (S : List (List ℝ)) (c : ℝ) (hne : S.flatten ≠ [])
    (hc : 0 < c) (hS : ∀ x ∈ S.flatten, dbAmin ≤ x)
    (hcS : ∀ x ∈ S.flatten, dbAmin ≤ c * x) :
    powerToDb (scaleMatrix c S) = powerToDb S := by
  rw [powerToDb, powerToDb, logSpecOf_scale S c hne hc hS hcS]

/-- C6 (amended): `power_to_db(mel, ref=np.max)` references the maximum
entry, so for every non-empty spectrogram the maximum output entry is 0 dB;
and scaling the input power spectrogram by a positive constant leaves the
output unchanged provided no entry of the spectrogram or of its scaled
version falls below the numerical floor `amin = 1e-10` that `power_to_db`
applies before taking logarithms. -/
theorem claim_C6_db_relative_to_max (S : List (List ℝ)) (c : ℝ)
    (hne : S.flatten ≠ []) (hc : 0 < c)
    (hS : ∀ x ∈ S.flatten, dbAmin ≤ x)
    (hcS : ∀ x ∈ S.flatten, dbAmin ≤ c * x) :
    matrixMax (powerToDb S) = 0 ∧ powerToDb (scaleMatrix c S) = powerToDb S :=
  ⟨powerToDb_matrixMax S hne, powerToDb_scale S c hne hc hS hcS⟩

/-- Witness for C6 at a concrete spectrogram and scale factor. -/
theorem claim_C6_db_relative_to_max_witness :
    (([[1, 2]] : List (List ℝ)).flatten ≠ [] ∧ (0:ℝ) < 2 ∧
      (∀ x ∈ ([[1, 2]] : List (List ℝ)).flatten, dbAmin ≤ x) ∧
      (∀ x ∈ ([[1, 2]] : List (List ℝ)).flatten, dbAmin ≤ 2 * x)) ∧
    (matrixMax (powerToDb [[1, 2]]) = 0 ∧
      powerToDb (scaleMatrix 2 [[1, 2]]) = powerToDb [[1, 2]]) := by
  have h3 : ∀ x ∈ ([[1, 2]] : List (List ℝ)).flatten, dbAmin ≤ x := by
    intro x hx
    simp at hx
    rcases hx with rfl | rfl <;> norm_num [dbAmin]
  have h4 : ∀ x ∈ ([[1, 2]] : List (List ℝ)).flatten, dbAmin ≤ 2 * x := by
    intro x hx
    simp at hx
    rcases hx with rfl | rfl <;> norm_num [dbAmin]
  exact ⟨⟨by simp, by norm_num, h3, h4⟩,
    claim_C6_db_relative_to_max [[1, 2]] 2 (by simp) (by norm_num) h3 h4⟩

/-- `power_to_db` of a 1-by-2 matrix whose first entry is the (positive)
maximum, when the value of the smaller entry stays above the clip line. -/
theorem powerToDb_pair (x y : ℝ) (hy : 0 < y) (hyx : y ≤ x)
    (hclip : -80 ≤ dbEntry x y) :
    powerToDb [[x, y]] = [[0, dbEntry x y]] := by
  have hx : (0:ℝ) < x := lt_of_lt_of_le hy hyx
  have hmag : magnitudeOf [[x, y]] = [[x, y]] := by
    rw [magnitudeOf]
    simp [abs_of_pos hx, abs_of_pos hy]
  have hmm : matrixMax [[x, y]] = x := by
    rw [matrixMax]
    show listMax [x, y] = x
    rw [listMax]
    simp [max_eq_left hyx]
  have hls : logSpecOf [[x, y]] = [[0, dbEntry x y]] := by
    rw [logSpecOf, hmag, hmm]
    simp [dbEntry_self]
  have hlsmax : matrixMax ([[(0:ℝ), dbEntry x y]] : List (List ℝ)) = 0 := by
    rw [matrixMax]
    show listMax [0, dbEntry x y] = 0
    rw [listMax]
    simp [max_eq_left (dbEntry_nonpos x y hyx)]
  rw [powerToDb, hls, hlsmax]
  have h1 : max (0:ℝ) (0 - 80) = 0 := by norm_num
  have h2 : max (dbEntry x y) (0 - 80) = dbEntry x y := max_eq_left (by linarith)
  simp [h1, h2]
  linarith

/-- C6 counterexample: for the power spectrogram `[[2e-10, 0.5e-10]]`,
whose smaller entry lies below librosa's floor `amin = 1e-10`, scaling by
the positive constant 2 changes the output of
`power_to_db(·, ref=np.max)` — the claimed unconditional scale invariance
fails. -/
theorem claim_C6_scale_invariance_counterexample :
    powerToDb (scaleMatrix 2 [[2 * dbAmin, dbAmin / 2]])
      ≠ powerToDb [[2 * dbAmin, dbAmin / 2]] := by
  have ha : (0:ℝ) < dbAmin := dbAmin_pos
  have hb10 : (1:ℝ) < 10 := by norm_num
  have e1 : (2:ℝ) * (2 * dbAmin) = 4 * dbAmin := by ring
  have e2 : (2:ℝ) * (dbAmin / 2) = dbAmin := by ring
  have hscaled : scaleMatrix 2 [[2 * dbAmin, dbAmin / 2]]
      = [[4 * dbAmin, dbAmin]] := by
    rw [scaleMatrix]
    simp [e1, e2]
  have hd1 : dbEntry (2 * dbAmin) (dbAmin / 2)
      = 10 * Real.logb 10 dbAmin - 10 * Real.logb 10 (2 * dbAmin) := by
    rw [dbEntry, max_eq_left (by linarith), max_eq_right (by linarith)]
  have hd2 : dbEntry (4 * dbAmin) dbAmin
      = 10 * Real.logb 10 dbAmin - 10 * Real.logb 10 (4 * dbAmin) := by
    rw [dbEntry, max_self, max_eq_right (by linarith)]
  have hlogb2 : Real.logb 10 2 ≤ 1 := by
    have h := Real.logb_le_logb_of_le hb10 (by norm_num : (0:ℝ) < 2)
      (by norm_num : (2:ℝ) ≤ 10)
    rwa [Real.logb_self_eq_one hb10] at h
  have hlogb4 : Real.logb 10 4 ≤ 1 := by
    have h := Real.logb_le_logb_of_le hb10 (by norm_num : (0:ℝ) < 4)
      (by norm_num : (4:ℝ) ≤ 10)
    rwa [Real.logb_self_eq_one hb10] at h
  have hm2 : Real.logb 10 (2 * dbAmin) = Real.logb 10 2 + Real.logb 10 dbAmin :=
    Real.logb_mul (by norm_num) (ne_of_gt ha)
  have hm4 : Real.logb 10 (4 * dbAmin) = Real.logb 10 4 + Real.logb 10 dbAmin :=
    Real.logb_mul (by norm_num) (ne_of_gt ha)
  have hv1 : -80 ≤ dbEntry (2 * dbAmin) (dbAmin / 2) := by
    rw [hd1, hm2]; linarith
  have hv2 : -80 ≤ dbEntry (4 * dbAmin) dbAmin := by
    rw [hd2, hm4]; linarith
  have hlt : Real.logb 10 (2 * dbAmin) < Real.logb 10 (4 * dbAmin) :=
    Real.logb_lt_logb hb10 (by linarith) (by linarith)
  have hne2 : dbEntry (4 * dbAmin) dbAmin ≠ dbEntry (2 * dbAmin) (dbAmin / 2) := by
    rw [hd1, hd2]
    intro h
    have heq : Real.logb 10 (2 * dbAmin) = Real.logb 10 (4 * dbAmin) := by linarith
    linarith
  rw [hscaled,
    powerToDb_pair (4 * dbAmin) dbAmin ha (by linarith) hv2,
    powerToDb_pair (2 * dbAmin) (dbAmin / 2) (by linarith) (by linarith) hv1]
  intro h
  apply hne2
  simpa using h

/-- The Hann window has the requested number of samples. -/
theorem hannWindow_length (N : Nat) : (hannWindow N).length = N := by
  rw [hannWindow, List.length_map, List.length_range]

/-- The mel filter bank has one row per mel band. -/
theorem melFilters_length (cfg : SpectralConfig) :
    (melFilters cfg).length = cfg.n_mels := by
  rw [melFilters, List.length_map, List.length_range]

/-- A matrix product has one row per row of the left factor. -/
theorem matMul_length (A B : List (List ℝ)) : (matMul A B).length = A.length := by
  rw [matMul, List.length_map]

/-- `power_to_db` preserves the shape of its input. -/
theorem powerToDb_length (M : List (List ℝ)) : (powerToDb M).length = M.length := by
  rw [powerToDb, List.length_map, logSpecOf, List.length_map, magnitudeOf,
    List.length_map]

/-- With a positive hop, a window no longer than the FFT size and a
non-empty signal, the centered stft succeeds and produces `1 + n_fft/2`
frequency rows whose common length is the frame count determined by the
padded signal length. -/
theorem stftPower_ok (cfg : SpectralConfig) (y : List ℝ) (hy : y ≠ [])
    (hhop : 0 < cfg.hop_length) (hwin : cfg.win_length ≤ cfg.n_fft) :
    ∃ S, stftPower cfg y = .ok S ∧ S.length = 1 + cfg.n_fft / 2 ∧
      ∀ row ∈ S, row.length = nFramesOfLen cfg y.length := by
  have hylen : 0 < y.length := List.length_pos.mpr hy
  have hwle : (hannWindow cfg.win_length).length ≤ cfg.n_fft := by
    rw [hannWindow_length]; exact hwin
  have hpadlen : (List.replicate (cfg.n_fft / 2) (0:ℝ) ++ y
      ++ List.replicate (cfg.n_fft / 2) (0:ℝ)).length
      = y.length + 2 * (cfg.n_fft / 2) := by
    simp [List.length_append, List.length_replicate]
    omega
  have hnotshort : ¬ ((List.replicate (cfg.n_fft / 2) (0:ℝ) ++ y
      ++ List.replicate (cfg.n_fft / 2) (0:ℝ)).length < cfg.n_fft) := by
    rw [hpadlen]
    have h2 : cfg.n_fft ≤ 2 * (cfg.n_fft / 2) + 1 := by omega
    omega
  rw [stftPower, if_neg (by omega : ¬ cfg.hop_length = 0), padCenter, if_pos hwle]
  dsimp only
  rw [if_neg hnotshort]
  refine ⟨_, rfl, by rw [List.length_map, List.length_range], ?_⟩
  intro row hrow
  rcases List.mem_map.mp hrow with ⟨k, _, rfl⟩
  rw [List.length_map, List.length_range, hpadlen, nFramesOfLen]

/-- C7: for every non-empty waveform — including waveforms shorter than one
analysis window, which the centered stft pads rather than rejects — and
every configuration with a positive hop and a window no longer than the FFT
size, `extract_mel_spectrogram` succeeds and returns a matrix with exactly
`n_mels` rows, regardless of the input length. -/
theorem claim_C7_extractor_total_with_n_mels_rows (cfg : SpectralConfig)
    (y : List ℝ) (hy : y ≠ []) (hhop : 0 < cfg.hop_length)
    (hwin : cfg.win_length ≤ cfg.n_fft) :
    ∃ M, extract_mel_spectrogram cfg y = .ok M ∧ M.length = cfg.n_mels := by
  obtain ⟨S, hS, hSlen, hrows⟩ := stftPower_ok cfg y hy hhop hwin
  have hmel : melspectrogram cfg y = .ok (matMul (melFilters cfg) S) := by
    rw [melspectrogram, hS]
  have hext : extract_mel_spectrogram cfg y
      = .ok (powerToDb (matMul (melFilters cfg) S)) := by
    rw [extract_mel_spectrogram, hmel]
  exact ⟨_, hext, by rw [powerToDb_length, matMul_length, melFilters_length]⟩

/-- Witness for C7 at a concrete configuration and a one-sample waveform
(shorter than the analysis window, exercising the padding branch). -/
theorem claim_C7_extractor_total_with_n_mels_rows_witness :
    (([(1:ℝ)] : List ℝ) ≠ [] ∧ 0 < cfg0.hop_length ∧
      cfg0.win_length ≤ cfg0.n_fft) ∧
    (∃ M, extract_mel_spectrogram cfg0 [(1:ℝ)] = .ok M ∧
      M.length = cfg0.n_mels) :=
  ⟨⟨by simp, by decide, by decide⟩,
    claim_C7_extractor_total_with_n_mels_rows cfg0 [(1:ℝ)] (by simp)
      (by decide) (by decide)⟩
